import Mathlib

/-!
Verification of the agent-fuzz harness-generation engine.

This file shallowly embeds the Python implementation
(`agentfuzz/analyzer/dynamic/coverage.py`, `agentfuzz/harness/validator.py`,
`agentfuzz/harness/mutation/api.py`, `agentfuzz/harness/generator.py`,
`agentfuzz/harness/agent/base.py`) into Lean and proves or refutes the
frozen specification claims about it.

Modelling conventions:
* Python `dict[str, V]` values are modelled as association lists
  `List (String × V)`; `lookupS` is `d.get(k)` (first binding wins; every
  dict constructed by the embedded code binds each key at most once, and
  where the source's dict comprehension overwrites earlier bindings the
  embedding reverses the list before lookup).
* Python `==` on (nested) dicts is extensional; it is modelled by the
  relations `dictEq` / `covEq` below (same key sets, pointwise equal values).
* Python numbers (`int`, `float`) are modelled by `ℤ` and `ℚ`; the float
  power operator `**` (only applied to the mutator's `exponent`) is an
  explicit function parameter `fpow` of the embedding.
* Exceptions (`KeyError`, `TypeError`, `ValueError`) are modelled by
  `Except PyErr`.
-/

/-- Python exceptions that the embedded code can raise. -/
inductive PyErr where
  | typeError
  | valueError
  | keyError (key : String)
deriving DecidableEq, Repr

/-- Association-list model of a Python `dict[str, V]`: `d.get(k)`. -/
def lookupS {V : Type} (k : String) : List (String × V) → Option V
  | [] => none
  | (k', v) :: rest => if k' = k then some v else lookupS k rest

/-- `d.get(k, default)`. -/
def getDS {V : Type} (d : List (String × V)) (k : String) (default : V) : V :=
  (lookupS k d).getD default

/-- Keys of a dict (in insertion order). -/
def keysOf {V : Type} (d : List (String × V)) : List String :=
  d.map Prod.fst

theorem lookupS_isSome_iff_mem {V : Type} (d : List (String × V)) (k : String) :
    (lookupS k d).isSome = true ↔ k ∈ keysOf d := by
  induction d with
  | nil => simp [lookupS, keysOf]
  | cons p rest ih =>
    obtain ⟨k', v⟩ := p
    by_cases h : k' = k
    · subst h
      simp [lookupS, keysOf]
    · simp only [lookupS, keysOf, List.map_cons, List.mem_cons, if_neg h]
      rw [keysOf] at ih
      rw [ih]
      constructor
      · exact Or.inr
      · rintro (h' | h')
        · exact absurd h'.symm h
        · exact h'

theorem lookupS_map_key {V : Type} (keys : List String) (f : String → V) (k : String) :
    lookupS k (keys.map fun k' => (k', f k')) =
      if k ∈ keys then some (f k) else none := by
  induction keys with
  | nil => simp [lookupS]
  | cons k' rest ih =>
    simp only [List.map_cons, lookupS, List.mem_cons]
    by_cases h : k' = k
    · subst h
      simp
    · have h2 : ¬(k = k') := fun hh => h hh.symm
      rw [if_neg h, ih]
      by_cases hm : k ∈ rest
      · simp [hm]
      · simp [hm, h2]

/-! ## Coverage (`agentfuzz/analyzer/dynamic/coverage.py`) -/

/-- Inner dict of a coverage table: `{BRANCH_ID | str(LINENO): #HIT}`. -/
abbrev HitDict := List (String × ℤ)

/-- `Coverage`: branch table `functions` and line table `lines`. -/
structure Coverage where
  functions : List (String × HitDict)
  lines : List (String × HitDict)
deriving DecidableEq, Repr

/-- `Coverage()`: both tables empty. -/
def Coverage.empty : Coverage := ⟨[], []⟩

/-- `Coverage.cover_branch(fn)`: `None` if `fn` is untracked or has no
branches, else the fraction of branches of `fn` with a positive hit count. -/
def Coverage.cover_branch (cov : Coverage) (fn : String) : Option ℚ :=
  match lookupS fn cov.functions with
  | none => none
  | some branches =>
    if branches.length = 0 then none
    else some ((branches.countP fun p => 0 < p.2 : ℚ) / branches.length)

/-- `Coverage.cover_lines(filename, lineno)`: `None` if `filename` is
untracked, else whether `str(lineno)` has a positive hit count. -/
def Coverage.cover_lines (cov : Coverage) (filename : String) (lineno : ℤ) :
    Option Bool :=
  match lookupS filename cov.lines with
  | none => none
  | some d => some (decide (0 < getDS d (toString lineno) 0))

/-- Python `repr` of a short string, as rendered by an f-string `{x=}`
(quote-escaping inside the string is irrelevant for the properties below). -/
def pyReprStr (s : String) : String := "\x27" ++ s ++ "\x27"

/-- The iteration `for branch, hit in branches` of `Coverage.flat` iterates
over the KEYS of the inner dict (the source is missing `.items()`), so each
key string is unpacked into exactly two characters: any key whose length is
not 2 raises `ValueError`. -/
def pyUnpack2 (s : String) : Except PyErr (Char × Char) :=
  match s.data with
  | [a, b] => .ok (a, b)
  | _ => .error .valueError

/-- One inner iteration of `Coverage.flat` over the keys of a single
function's branch dict.  With `nonzero=True` the filter evaluates
`hit > 0` where `hit` is a character (a `str`), raising `TypeError`;
with `nonzero=False` the filter short-circuits, and the comprehension
records the pair `(f"{fn=}/{branch=}", hit)`. -/
def flatInner (fn : String) (nonzero : Bool) :
    List String → Except PyErr (List (String × String))
  | [] => .ok []
  | key :: rest => do
    let (branch, hit) ← pyUnpack2 key
    if nonzero then
      .error .typeError
    else
      let entry := ("fn=" ++ pyReprStr fn ++ "/branch=" ++
        pyReprStr (String.mk [branch]), String.mk [hit])
      let tail ← flatInner fn nonzero rest
      .ok (entry :: tail)

/-- `Coverage.flat(nonzero)`, iterating the outer dict. -/
def Coverage.flat (cov : Coverage) (nonzero : Bool) :
    Except PyErr (List (String × String)) :=
  go cov.functions
where
  go : List (String × HitDict) → Except PyErr (List (String × String))
    | [] => .ok []
    | (fn, branches) :: rest => do
      let head ← flatInner fn nonzero (keysOf branches)
      let tail ← go rest
      .ok (head ++ tail)

/-- `len` of the dict built by the comprehension in `flat` (later duplicate
keys overwrite earlier ones, so the length is the number of distinct keys). -/
def pyDictSize (entries : List (String × String)) : ℕ :=
  (entries.map Prod.fst).dedup.length

/-- `Coverage.coverage_branch`:
`len(flat(nonzero=True)) / max(len(flat(nonzero=False)), 1)`. -/
def Coverage.coverage_branch (cov : Coverage) : Except PyErr ℚ := do
  let num ← cov.flat true
  let den ← cov.flat false
  .ok ((pyDictSize num : ℚ) / max (pyDictSize den) 1)

/-- The inner `_merge` of `Coverage.merge`: pointwise additive union over
the union of the key sets, missing keys defaulting to the empty dict /
zero count. -/
def mergeD (a b : List (String × HitDict)) : List (String × HitDict) :=
  let keys := (keysOf a ++ keysOf b).dedup
  keys.map fun key =>
    let ia := getDS a key []
    let ib := getDS b key []
    let ids := (keysOf ia ++ keysOf ib).dedup
    (key, ids.map fun id => (id, getDS ia id 0 + getDS ib id 0))

/-- `Coverage.merge(other)` (modelled purely: the source reassigns
`self.functions` / `self.lines` in place). -/
def Coverage.merge (a other : Coverage) : Coverage :=
  ⟨mergeD a.functions other.functions, mergeD a.lines other.lines⟩

/-! ### Extensional (Python `==`) equality of coverage tables -/

/-- `k in d` for the outer dict. -/
def dPresent (d : List (String × HitDict)) (k : String) : Bool :=
  (lookupS k d).isSome

/-- `id in d[k]` (false when `k` itself is absent). -/
def dPresent2 (d : List (String × HitDict)) (k id : String) : Bool :=
  (lookupS id (getDS d k [])).isSome

/-- `d.get(k, {}).get(id, 0)`. -/
def dGet2 (d : List (String × HitDict)) (k id : String) : ℤ :=
  getDS (getDS d k []) id 0

/-- Python `==` on nested dicts `dict[str, dict[str, int]]`: same outer key
set, same inner key sets, and pointwise equal counts. -/
def dictEq (a b : List (String × HitDict)) : Prop :=
  (∀ k, dPresent a k = dPresent b k) ∧
  (∀ k id, dPresent2 a k id = dPresent2 b k id) ∧
  (∀ k id, dGet2 a k id = dGet2 b k id)

/-- Python `==` on `Coverage`: both tables extensionally equal. -/
def covEq (a b : Coverage) : Prop :=
  dictEq a.functions b.functions ∧ dictEq a.lines b.lines

theorem lookupS_eq_none_iff {V : Type} (d : List (String × V)) (k : String) :
    lookupS k d = none ↔ k ∉ keysOf d := by
  rw [← lookupS_isSome_iff_mem]
  cases lookupS k d <;> simp

theorem getDS_eq_zero_of_not_mem (d : HitDict) (id : String)
    (h : id ∉ keysOf d) : getDS d id 0 = 0 := by
  rw [getDS, (lookupS_eq_none_iff d id).mpr h]
  rfl

/-- Key-presence observation of `_merge`: a key is present in the merged
table iff it is present in either operand. -/
theorem dPresent_mergeD (a b : List (String × HitDict)) (k : String) :
    dPresent (mergeD a b) k = (dPresent a k || dPresent b k) := by
  rw [dPresent, mergeD, lookupS_map_key]
  by_cases h : k ∈ (keysOf a ++ keysOf b).dedup
  · rw [if_pos h]
    rw [List.mem_dedup, List.mem_append, ← lookupS_isSome_iff_mem,
      ← lookupS_isSome_iff_mem] at h
    rcases h with h | h <;>
      simp_all [dPresent]
  · rw [if_neg h]
    rw [List.mem_dedup, List.mem_append] at h
    push_neg at h
    obtain ⟨ha, hb⟩ := h
    rw [← lookupS_isSome_iff_mem] at ha hb
    simp only [Bool.not_eq_true] at ha hb
    simp [dPresent, ha, hb]

/-- The inner dict of the merged table at key `k`. -/
theorem getDS_mergeD (a b : List (String × HitDict)) (k : String) :
    getDS (mergeD a b) k [] =
      if k ∈ keysOf a ∨ k ∈ keysOf b then
        ((keysOf (getDS a k []) ++ keysOf (getDS b k [])).dedup).map
          fun id => (id, getDS (getDS a k []) id 0 + getDS (getDS b k []) id 0)
      else [] := by
  rw [getDS, mergeD, lookupS_map_key]
  by_cases h : k ∈ (keysOf a ++ keysOf b).dedup
  · rw [if_pos h, List.mem_dedup, List.mem_append] at *
    rw [if_pos h]
    rfl
  · rw [if_neg h, List.mem_dedup, List.mem_append] at *
    rw [if_neg h]
    rfl

/-- Inner-key-presence observation of `_merge`. -/
theorem dPresent2_mergeD (a b : List (String × HitDict)) (k id : String) :
    dPresent2 (mergeD a b) k id = (dPresent2 a k id || dPresent2 b k id) := by
  rw [dPresent2, getDS_mergeD]
  by_cases h : k ∈ keysOf a ∨ k ∈ keysOf b
  · rw [if_pos h, lookupS_map_key]
    by_cases hid : id ∈ (keysOf (getDS a k []) ++ keysOf (getDS b k [])).dedup
    · rw [if_pos hid]
      rw [List.mem_dedup, List.mem_append, ← lookupS_isSome_iff_mem,
        ← lookupS_isSome_iff_mem] at hid
      rcases hid with hid | hid <;> simp_all [dPresent2]
    · rw [if_neg hid]
      rw [List.mem_dedup, List.mem_append] at hid
      push_neg at hid
      obtain ⟨ha, hb⟩ := hid
      rw [← lookupS_isSome_iff_mem] at ha hb
      simp only [Bool.not_eq_true] at ha hb
      simp [dPresent2, ha, hb]
  · rw [if_neg h]
    push_neg at h
    obtain ⟨ha, hb⟩ := h
    rw [← lookupS_isSome_iff_mem] at ha hb
    have ha' : lookupS k a = none := by
      rw [lookupS_eq_none_iff]
      intro hm
      rw [← lookupS_isSome_iff_mem] at hm
      exact ha hm
    have hb' : lookupS k b = none := by
      rw [lookupS_eq_none_iff]
      intro hm
      rw [← lookupS_isSome_iff_mem] at hm
      exact hb hm
    simp [dPresent2, getDS, ha', hb', lookupS]

/-- Count observation of `_merge`: pointwise addition with zero defaults. -/
theorem dGet2_mergeD (a b : List (String × HitDict)) (k id : String) :
    dGet2 (mergeD a b) k id = dGet2 a k id + dGet2 b k id := by
  rw [dGet2, getDS_mergeD]
  by_cases h : k ∈ keysOf a ∨ k ∈ keysOf b
  · rw [if_pos h, getDS, lookupS_map_key]
    by_cases hid : id ∈ (keysOf (getDS a k []) ++ keysOf (getDS b k [])).dedup
    · rw [if_pos hid]
      rfl
    · rw [if_neg hid]
      rw [List.mem_dedup, List.mem_append] at hid
      push_neg at hid
      obtain ⟨ha, hb⟩ := hid
      rw [dGet2, dGet2, getDS_eq_zero_of_not_mem _ _ ha,
        getDS_eq_zero_of_not_mem _ _ hb]
      rfl
  · rw [if_neg h]
    push_neg at h
    obtain ⟨ha, hb⟩ := h
    have ha' : lookupS k a = none := (lookupS_eq_none_iff a k).mpr ha
    have hb' : lookupS k b = none := (lookupS_eq_none_iff b k).mpr hb
    simp [dGet2, getDS, ha', hb', lookupS]

theorem dPresent_foldl (l : List (List (String × HitDict)))
    (c : List (String × HitDict)) (k : String) :
    dPresent (l.foldl mergeD c) k = (dPresent c k || l.any fun d => dPresent d k) := by
  induction l generalizing c with
  | nil => simp
  | cons d rest ih =>
    rw [List.foldl_cons, ih, dPresent_mergeD, List.any_cons, Bool.or_assoc]

theorem dPresent2_foldl (l : List (List (String × HitDict)))
    (c : List (String × HitDict)) (k id : String) :
    dPresent2 (l.foldl mergeD c) k id =
      (dPresent2 c k id || l.any fun d => dPresent2 d k id) := by
  induction l generalizing c with
  | nil => simp
  | cons d rest ih =>
    rw [List.foldl_cons, ih, dPresent2_mergeD, List.any_cons, Bool.or_assoc]

theorem dGet2_foldl (l : List (List (String × HitDict)))
    (c : List (String × HitDict)) (k id : String) :
    dGet2 (l.foldl mergeD c) k id =
      dGet2 c k id + (l.map fun d => dGet2 d k id).sum := by
  induction l generalizing c with
  | nil => simp
  | cons d rest ih =>
    rw [List.foldl_cons, ih, dGet2_mergeD, List.map_cons, List.sum_cons, add_assoc]

theorem perm_any {α : Type} {p : α → Bool} {l₁ l₂ : List α}
    (h : l₁.Perm l₂) : l₁.any p = l₂.any p := by
  cases hb : l₂.any p
  · rw [List.any_eq_false] at hb ⊢
    intro x hx
    exact hb x (h.mem_iff.mp hx)
  · rw [List.any_eq_true] at hb ⊢
    obtain ⟨x, hx, hpx⟩ := hb
    exact ⟨x, h.mem_iff.mpr hx, hpx⟩

theorem foldl_merge_functions (l : List Coverage) (c : Coverage) :
    (l.foldl Coverage.merge c).functions =
      (l.map Coverage.functions).foldl mergeD c.functions := by
  induction l generalizing c with
  | nil => rfl
  | cons d rest ih => rw [List.foldl_cons, ih]; rfl

theorem foldl_merge_lines (l : List Coverage) (c : Coverage) :
    (l.foldl Coverage.merge c).lines =
      (l.map Coverage.lines).foldl mergeD c.lines := by
  induction l generalizing c with
  | nil => rfl
  | cons d rest ih => rw [List.foldl_cons, ih]; rfl

theorem dictEq_foldl_perm (c : List (String × HitDict))
    (l₁ l₂ : List (List (String × HitDict))) (h : l₁.Perm l₂) :
    dictEq (l₁.foldl mergeD c) (l₂.foldl mergeD c) := by
  refine ⟨fun k => ?_, fun k id => ?_, fun k id => ?_⟩
  · rw [dPresent_foldl, dPresent_foldl, perm_any h]
  · rw [dPresent2_foldl, dPresent2_foldl, perm_any h]
  · rw [dGet2_foldl, dGet2_foldl, (h.map _).sum_eq]

/-- C2: merging is commutative modulo Python `==`, the empty `Coverage` is a
right identity, and folding `merge` over a batch of coverages is invariant
under reordering of the batch. -/
theorem C2_merge_comm_identity_order_independent :
    ∀ a b : Coverage,
      covEq (a.merge b) (b.merge a) ∧
      covEq (a.merge Coverage.empty) a ∧
      ∀ (c : Coverage) (l₁ l₂ : List Coverage), l₁.Perm l₂ →
        covEq (l₁.foldl Coverage.merge c) (l₂.foldl Coverage.merge c) := by
  have hcomm : ∀ x y : List (String × HitDict), dictEq (mergeD x y) (mergeD y x) := by
    intro x y
    refine ⟨fun k => ?_, fun k id => ?_, fun k id => ?_⟩
    · rw [dPresent_mergeD, dPresent_mergeD, Bool.or_comm]
    · rw [dPresent2_mergeD, dPresent2_mergeD, Bool.or_comm]
    · rw [dGet2_mergeD, dGet2_mergeD, add_comm]
  have hid : ∀ x : List (String × HitDict), dictEq (mergeD x []) x := by
    intro x
    refine ⟨fun k => ?_, fun k id => ?_, fun k id => ?_⟩
    · rw [dPresent_mergeD]
      simp [dPresent, lookupS]
    · rw [dPresent2_mergeD]
      simp [dPresent2, getDS, lookupS]
    · rw [dGet2_mergeD]
      simp [dGet2, getDS, lookupS]
  intro a b
  refine ⟨⟨hcomm _ _, hcomm _ _⟩, ⟨hid _, hid _⟩, fun c l₁ l₂ h => ?_⟩
  constructor
  · rw [foldl_merge_functions, foldl_merge_functions]
    exact dictEq_foldl_perm _ _ _ (h.map _)
  · rw [foldl_merge_lines, foldl_merge_lines]
    exact dictEq_foldl_perm _ _ _ (h.map _)

/-- Witness for C2 at concrete coverages: instantiates the theorem on two
concrete tables and a concrete permuted batch. -/
theorem C2_witness :
    covEq ((Coverage.mk [("f", [("B0", 1)])] []).merge
        (Coverage.mk [("g", [("B1", 2)])] []))
      ((Coverage.mk [("g", [("B1", 2)])] []).merge
        (Coverage.mk [("f", [("B0", 1)])] [])) ∧
    covEq ([Coverage.mk [("f", [("B0", 1)])] [],
        Coverage.mk [("g", [("B1", 2)])] []].foldl Coverage.merge Coverage.empty)
      ([Coverage.mk [("g", [("B1", 2)])] [],
        Coverage.mk [("f", [("B0", 1)])] []].foldl Coverage.merge Coverage.empty) := by
  refine ⟨(C2_merge_comm_identity_order_independent
      (Coverage.mk [("f", [("B0", 1)])] []) (Coverage.mk [("g", [("B1", 2)])] [])).1,
    ((C2_merge_comm_identity_order_independent
      (Coverage.mk [("f", [("B0", 1)])] []) (Coverage.mk [("g", [("B1", 2)])] [])).2.2
      Coverage.empty _ _ ?_)⟩
  exact List.Perm.swap _ _ _

instance {ε α : Type} [DecidableEq ε] [DecidableEq α] : DecidableEq (Except ε α) := fun x y =>
  match x, y with
  | .ok a, .ok b =>
    if h : a = b then isTrue (by rw [h]) else isFalse (by simp [h])
  | .error e, .error f =>
    if h : e = f then isTrue (by rw [h]) else isFalse (by simp [h])
  | .ok _, .error _ => isFalse (by simp)
  | .error _, .ok _ => isFalse (by simp)

/-- C5 (code bug): `coverage_branch` is NOT total.  `flat` iterates
`for branch, hit in branches` over the inner dict itself (the source is
missing `.items()`), so it unpacks each branch KEY string and, with
`nonzero=True`, compares a character to `0`: on the one-branch coverage
`{"f": {"B0": 1}}` the property evaluation raises `TypeError`.  On the
empty `Coverage` both comprehensions are empty and the result is
`0 / max(0, 1) = 0`, as the claim states. -/
theorem C5_coverage_branch_raises :
    (Coverage.mk [("f", [("B0", 1)])] []).coverage_branch =
      Except.error PyErr.typeError ∧
    Coverage.empty.coverage_branch = Except.ok 0 := by
  constructor
  · rfl
  · show (do
      let num ← Coverage.empty.flat true
      let den ← Coverage.empty.flat false
      Except.ok ((pyDictSize num : ℚ) / max (pyDictSize den) 1)) = Except.ok 0
    have h1 : Coverage.empty.flat true = Except.ok [] := rfl
    have h2 : Coverage.empty.flat false = Except.ok [] := rfl
    rw [h1, h2]
    show Except.ok ((pyDictSize [] : ℚ) / max (pyDictSize []) 1) = Except.ok 0
    norm_num [pyDictSize]

/-! ## Harness validator (`agentfuzz/harness/validator.py`) -/

/-- Python truthiness of a `bool | None` value (`None` is falsy). -/
def pyTruthyOB (o : Option Bool) : Bool := o.getD false

/-- The per-path condition of `check_critical_path_hit`:
`all(cov.cover_lines(path, lineno) for _, lineno in critical_path
if lineno is not None)`. -/
def pathValidated {α : Type} (cov : Coverage) (path : String)
    (critical_path : List (α × Option ℤ)) : Bool :=
  critical_path.all fun e =>
    match e.2 with
    | none => true
    | some lineno => pyTruthyOB (cov.cover_lines path lineno)

/-- The `_label` diagnostic of `check_critical_path_hit`. -/
def pathLabel (cov : Coverage) (path : String) (l : Option ℤ) : String :=
  match l with
  | none => "(invalid lineno)"
  | some l =>
    match cov.cover_lines path l with
    | none => "(invalid filename)"
    | some c => if c then "(hit)" else "(miss)"

/-- `HarnessValidator.check_critical_path_hit`: keep the critical paths all
of whose non-null linenos are covered; if none remains, return
`CriticalPathNotHit` carrying every path annotated per element. -/
def check_critical_path_hit {α : Type} (path : String) (cov : Coverage)
    (critical_paths : List (List (α × Option ℤ))) :
    Except (List (List (α × Option ℤ × String))) (List (List (α × Option ℤ))) :=
  let validated_paths := critical_paths.filter (pathValidated cov path)
  if validated_paths.isEmpty then
    .error (critical_paths.map fun critical_path =>
      critical_path.map fun e => (e.1, e.2, pathLabel cov path e.2))
  else
    .ok validated_paths

/-- The `Success` value built by `HarnessValidator.validate` (stage 6). -/
structure Success (α : Type) where
  path : String
  cov_lib : Coverage
  cov_fuzz : Coverage
  validated_paths : List (List (α × Option ℤ))
deriving DecidableEq

/-- Stage 6 of `HarnessValidator.validate`: propagate the
`CriticalPathNotHit` error, else wrap the validated paths in `Success`. -/
def validateCriticalPathStage {α : Type} (path : String)
    (cov_lib cov_fuzz : Coverage) (critical_paths : List (List (α × Option ℤ))) :
    Except (List (List (α × Option ℤ × String))) (Success α) :=
  match check_critical_path_hit path cov_fuzz critical_paths with
  | .error e => .error e
  | .ok validated_paths => .ok ⟨path, cov_lib, cov_fuzz, validated_paths⟩

/-- The claim's definition of a validated path: every element with a
non-null lineno satisfies `cov.cover_lines(source_path, lineno) == True`. -/
def specValidated {α : Type} (cov : Coverage) (path : String)
    (critical_path : List (α × Option ℤ)) : Prop :=
  ∀ e ∈ critical_path, ∀ l : ℤ, e.2 = some l →
    cov.cover_lines path l = some true

theorem pathValidated_iff_specValidated {α : Type} (cov : Coverage)
    (path : String) (cp : List (α × Option ℤ)) :
    pathValidated cov path cp = true ↔ specValidated cov path cp := by
  rw [pathValidated, List.all_eq_true, specValidated]
  constructor
  · intro h e he l hl
    have := h e he
    rw [hl] at this
    simp only [pyTruthyOB] at this
    cases hc : cov.cover_lines path l with
    | none => rw [hc] at this; simp at this
    | some b =>
      rw [hc] at this
      simp only [Option.getD_some] at this
      rw [this]
  · intro h e he
    cases hl : e.2 with
    | none => simp
    | some l =>
      have := h e he l hl
      simp [pyTruthyOB, this]

/-- C1: the critical-path stage classifies a path as validated iff every
element with a non-null lineno is reported covered by
`cov.cover_lines(source_path, lineno)`; with no validated path it returns
`CriticalPathNotHit` carrying every path annotated per element with the
hit / miss / invalid-lineno / invalid-filename label, and otherwise
`validate` returns `Success` carrying the non-empty validated-path list. -/
theorem C1_critical_path_stage {α : Type} (path : String)
    (cov_lib cov : Coverage) (cps : List (List (α × Option ℤ))) :
    (∀ cp ∈ cps, (pathValidated cov path cp = true ↔ specValidated cov path cp)) ∧
    ((∀ cp ∈ cps, ¬ specValidated cov path cp) →
      validateCriticalPathStage path cov_lib cov cps =
        .error (cps.map fun cp => cp.map fun e => (e.1, e.2, pathLabel cov path e.2))) ∧
    ((∃ cp ∈ cps, specValidated cov path cp) →
      ∃ validated, validateCriticalPathStage path cov_lib cov cps =
          .ok ⟨path, cov_lib, cov, validated⟩ ∧
        validated ≠ [] ∧ validated = cps.filter (pathValidated cov path)) := by
  refine ⟨fun cp _ => pathValidated_iff_specValidated cov path cp, ?_, ?_⟩
  · intro h
    have hempty : cps.filter (pathValidated cov path) = [] := by
      rw [List.filter_eq_nil_iff]
      intro cp hcp
      rw [Bool.not_eq_true]
      cases hb : pathValidated cov path cp
      · rfl
      · exact absurd ((pathValidated_iff_specValidated cov path cp).mp hb)
          (h cp hcp)
    rw [validateCriticalPathStage, check_critical_path_hit]
    simp only [hempty, List.isEmpty_nil, if_true]
  · rintro ⟨cp, hcp, hval⟩
    have hmem : cp ∈ cps.filter (pathValidated cov path) :=
      List.mem_filter.mpr ⟨hcp, (pathValidated_iff_specValidated cov path cp).mpr hval⟩
    have hne : ¬(cps.filter (pathValidated cov path)).isEmpty := by
      intro h
      rw [List.isEmpty_iff] at h
      rw [h] at hmem
      exact absurd hmem (List.not_mem_nil cp)
    refine ⟨cps.filter (pathValidated cov path), ?_, ?_, rfl⟩
    · rw [validateCriticalPathStage, check_critical_path_hit]
      simp only [hne, if_false]
      simp at hne
      simp [hne]
    · intro h
      rw [h] at hmem
      exact absurd hmem (List.not_mem_nil cp)

/-- Witness for C1: a concrete miss (untracked filename) yields the
annotated `CriticalPathNotHit`, and a concrete coverage hitting line 3
yields `Success` with the validated path. -/
theorem C1_witness :
    (validateCriticalPathStage "p" Coverage.empty Coverage.empty
        [[(("f" : String), some 3)]] =
      .error [[("f", some 3, "(invalid filename)")]]) ∧
    ∃ validated,
      validateCriticalPathStage "p" Coverage.empty
          (Coverage.mk [] [("p", [("3", 1)])]) [[(("f" : String), some 3)]] =
        .ok ⟨"p", Coverage.empty, Coverage.mk [] [("p", [("3", 1)])], validated⟩ ∧
      validated ≠ [] ∧
      validated = [[(("f" : String), some 3)]].filter
        (pathValidated (Coverage.mk [] [("p", [("3", 1)])]) "p") := by
  constructor
  · have h := (C1_critical_path_stage "p" Coverage.empty Coverage.empty
      [[(("f" : String), some 3)]]).2.1
    have hdis : ∀ cp ∈ [[(("f" : String), some 3)]],
        ¬ specValidated Coverage.empty "p" cp := by
      intro cp hcp hspec
      simp only [List.mem_singleton] at hcp
      subst hcp
      have := hspec ("f", some 3) (List.mem_singleton.mpr rfl) 3 rfl
      simp [Coverage.cover_lines, Coverage.empty, lookupS] at this
    have := h hdis
    rw [this]
    rfl
  · exact (C1_critical_path_stage "p" Coverage.empty
      (Coverage.mk [] [("p", [("3", 1)])]) [[(("f" : String), some 3)]]).2.2
      ⟨[(("f" : String), some 3)], List.mem_singleton.mpr rfl, by
        intro e he l hl
        simp only [List.mem_singleton] at he
        subst he
        simp only [Option.some.injEq] at hl
        subst hl
        decide⟩

/-! ## Parse stage (`HarnessValidator.check_code_segment`) -/

/-- The triple-backtick delimiter. -/
def ticks : List Char := "```".toList

/-- `response.find("```")` on a character list: index of the first
occurrence, `none` when absent (Python returns `-1`). -/
def find3 : List Char → Option ℕ
  | [] => none
  | c :: rest =>
    if ticks.isPrefixOf (c :: rest) then some 0
    else (find3 rest).map (· + 1)

/-- Whether the delimiter occurs at index `i`. -/
def ticksAt (r : List Char) (i : ℕ) : Bool :=
  ticks.isPrefixOf (r.drop i)

/-- Python `str.split("\n")`, returned as (first line, remaining lines). -/
def splitNL : List Char → List Char × List (List Char)
  | [] => ([], [])
  | c :: rest =>
    let (h, t) := splitNL rest
    if c = '\n' then ([], (h :: t)) else (c :: h, t)

/-- Python `"\n".join(lines)`. -/
def joinNL : List (List Char) → List Char
  | [] => []
  | [x] => x
  | x :: xs => x ++ '\n' :: joinNL xs

/-- Python whitespace (the characters stripped by `str.strip()`). -/
def pyIsSpace (c : Char) : Bool :=
  c = ' ' ∨ c = '\t' ∨ c = '\n' ∨ c = '\r' ∨ c = '\x0b' ∨ c = '\x0c'

/-- Python `str.strip()`. -/
def pyStrip (l : List Char) : List Char :=
  ((l.dropWhile pyIsSpace).reverse.dropWhile pyIsSpace).reverse

/-- The `ParseError` value (`response`, `description`). -/
structure ParseError where
  response : List Char
  description : String
deriving DecidableEq

/-- `HarnessValidator.check_code_segment`: find the first ```` ``` ````,
find the closing ```` ``` ````, split the enclosed segment on newlines,
strip the first line as an optional language tag (`None` when blank), and
join the remaining lines as the code. -/
def check_code_segment (response : List Char) :
    Except ParseError (Option (List Char) × List Char) :=
  match find3 response with
  | none => .error ⟨response, "ParseError: cannot find a ```"⟩
  | some i =>
    let rest := response.drop (i + 3)
    match find3 rest with
    | none => .error ⟨rest, "ParseError: cannot find a pair of ```"⟩
    | some j =>
      let segment := rest.take j
      let (ext, lines) := splitNL segment
      let stripped := pyStrip ext
      .ok (if stripped = [] then none else some stripped, joinNL lines)

theorem find3_eq_none_iff (r : List Char) :
    find3 r = none ↔ ∀ i, ticksAt r i = false := by
  induction r with
  | nil =>
    simp only [find3, true_iff]
    intro i
    rw [ticksAt, List.drop_nil]
    decide
  | cons c rest ih =>
    rw [find3]
    by_cases h : ticks.isPrefixOf (c :: rest)
    · rw [if_pos h]
      constructor
      · intro h'
        exact absurd h' (by simp)
      · intro h'
        have := h' 0
        rw [ticksAt, List.drop_zero, h] at this
        exact absurd this (by simp)
    · rw [if_neg h]
      constructor
      · intro h' i
        cases i with
        | zero =>
          rw [ticksAt, List.drop_zero]
          exact Bool.not_eq_true _ |>.mp h
        | succ n =>
          rw [Option.map_eq_none'] at h'
          exact (ih.mp h') n
      · intro h'
        rw [Option.map_eq_none', ih]
        intro i
        have := h' (i + 1)
        rwa [ticksAt, List.drop_succ_cons] at this

theorem find3_eq_some_iff (r : List Char) (i : ℕ) :
    find3 r = some i ↔
      ticksAt r i = true ∧ ∀ k < i, ticksAt r k = false := by
  induction r generalizing i with
  | nil =>
    simp only [find3]
    constructor
    · intro h
      exact absurd h (by simp)
    · rintro ⟨h1, _⟩
      rw [ticksAt, List.drop_nil] at h1
      exact absurd h1 (by decide)
  | cons c rest ih =>
    rw [find3]
    by_cases h : ticks.isPrefixOf (c :: rest)
    · rw [if_pos h]
      constructor
      · intro h'
        rw [Option.some_inj] at h'
        subst h'
        refine ⟨by rw [ticksAt, List.drop_zero]; exact h, fun k hk => absurd hk (by omega)⟩
      · rintro ⟨h1, h2⟩
        cases i with
        | zero => rfl
        | succ n =>
          have := h2 0 (by omega)
          rw [ticksAt, List.drop_zero, h] at this
          exact absurd this (by simp)
    · rw [if_neg h]
      cases i with
      | zero =>
        constructor
        · intro h'
          rw [Option.map_eq_some'] at h'
          obtain ⟨a, _, ha⟩ := h'
          exact absurd ha (by omega)
        · rintro ⟨h1, _⟩
          rw [ticksAt, List.drop_zero] at h1
          exact absurd h1 (by simp [h])
      | succ n =>
        constructor
        · intro h'
          rw [Option.map_eq_some'] at h'
          obtain ⟨a, ha, hai⟩ := h'
          have han : a = n := by omega
          rw [han] at ha
          obtain ⟨h1, h2⟩ := (ih n).mp ha
          refine ⟨by rwa [ticksAt, List.drop_succ_cons], fun k hk => ?_⟩
          cases k with
          | zero =>
            rw [ticksAt, List.drop_zero]
            exact Bool.not_eq_true _ |>.mp h
          | succ m =>
            rw [ticksAt, List.drop_succ_cons]
            exact h2 m (by omega)
        · rintro ⟨h1, h2⟩
          rw [ticksAt, List.drop_succ_cons] at h1
          have : find3 rest = some n := by
            rw [ih]
            refine ⟨h1, fun k hk => ?_⟩
            have := h2 (k + 1) (by omega)
            rwa [ticksAt, List.drop_succ_cons] at this
          rw [this]
          rfl

/-- `c != '\n'`, the predicate characterizing the first line. -/
def notNL (c : Char) : Bool := c ≠ '\n'

theorem joinNL_cons_cons (x : List Char) (y : List Char) (t : List (List Char)) :
    joinNL ((x ++ y) :: t) = x ++ joinNL (y :: t) := by
  cases t with
  | nil => rfl
  | cons z zs => simp [joinNL]

theorem joinNL_splitNL (l : List Char) :
    joinNL ((splitNL l).1 :: (splitNL l).2) = l := by
  induction l with
  | nil => rfl
  | cons c rest ih =>
    rw [splitNL]
    by_cases h : c = '\n'
    · subst h
      simp only [if_pos rfl]
      cases hsp : splitNL rest with
    | mk h' t' =>
        rw [hsp] at ih
        show joinNL ([] :: h' :: t') = '\n' :: rest
        have hj : joinNL ([] :: h' :: t') = '\n' :: joinNL (h' :: t') := rfl
        rw [hj]
        simp only [] at ih
        rw [ih]
    · simp only [if_neg h]
      cases hsp : splitNL rest with
    | mk h' t' =>
        rw [hsp] at ih
        show joinNL ((c :: h') :: t') = c :: rest
        have : (c :: h') = [c] ++ h' := rfl
        rw [this, joinNL_cons_cons]
        rw [ih]
        rfl

theorem splitNL_fst (l : List Char) :
    (splitNL l).1 = l.takeWhile notNL := by
  induction l with
  | nil => rfl
  | cons c rest ih =>
    rw [splitNL, List.takeWhile]
    by_cases h : c = '\n'
    · subst h
      simp [notNL]
    · simp only [if_neg h]
      have hn : notNL c = true := by simp [notNL, h]
      rw [hn]
      simp only []
      cases hsp : splitNL rest with
    | mk h' t' =>
        rw [hsp] at ih
        simp only [] at ih
        simp [ih]

theorem joinNL_splitNL_snd (l : List Char) :
    joinNL (splitNL l).2 = (l.dropWhile notNL).drop 1 := by
  induction l with
  | nil => rfl
  | cons c rest ih =>
    rw [splitNL, List.dropWhile]
    by_cases h : c = '\n'
    · subst h
      have hn : notNL '\n' = false := by simp [notNL]
      rw [hn]
      simp only [if_pos rfl, List.drop_one]
      cases hsp : splitNL rest with
    | mk h' t' =>
        have := joinNL_splitNL rest
        rw [hsp] at this
        exact this
    · have hn : notNL c = true := by simp [notNL, h]
      rw [hn]
      simp only [if_neg h]
      cases hsp : splitNL rest with
    | mk h' t' =>
        rw [hsp] at ih
        exact ih

/-- C4: the parse stage extracts the first triple-backtick block (first
delimiter occurrence `i`, next occurrence `j` after it), strips the opening
line as an optional language tag, and returns the remaining content; with
no delimiter at all, or an opening delimiter without a closing one, it
returns a `ParseError` value. -/
theorem C4_check_code_segment (r : List Char) :
    ((∀ i, ticksAt r i = false) → ∃ e, check_code_segment r = .error e) ∧
    (∀ i, ticksAt r i = true → (∀ k < i, ticksAt r k = false) →
      (∀ j, ticksAt (r.drop (i + 3)) j = false) →
      ∃ e, check_code_segment r = .error e) ∧
    (∀ i j, ticksAt r i = true → (∀ k < i, ticksAt r k = false) →
      ticksAt (r.drop (i + 3)) j = true →
      (∀ k < j, ticksAt (r.drop (i + 3)) k = false) →
      check_code_segment r =
        .ok (let block := (r.drop (i + 3)).take j
             let tag := pyStrip (block.takeWhile notNL)
             (if tag = [] then none else some tag,
              (block.dropWhile notNL).drop 1))) := by
  refine ⟨?_, ?_, ?_⟩
  · intro h
    have hf : find3 r = none := (find3_eq_none_iff r).mpr h
    rw [check_code_segment, hf]
    exact ⟨_, rfl⟩
  · intro i h1 h2 h3
    have hf : find3 r = some i := (find3_eq_some_iff r i).mpr ⟨h1, h2⟩
    have hf2 : find3 (r.drop (i + 3)) = none :=
      (find3_eq_none_iff (r.drop (i + 3))).mpr h3
    rw [check_code_segment, hf]
    simp only [hf2]
    exact ⟨_, rfl⟩
  · intro i j h1 h2 h3 h4
    have hf : find3 r = some i := (find3_eq_some_iff r i).mpr ⟨h1, h2⟩
    have hf2 : find3 (r.drop (i + 3)) = some j :=
      (find3_eq_some_iff (r.drop (i + 3)) j).mpr ⟨h3, h4⟩
    rw [check_code_segment, hf]
    simp only [hf2]
    cases hsp : splitNL ((r.drop (i + 3)).take j) with
  | mk ext lines =>
      have hfst : ext = ((r.drop (i + 3)).take j).takeWhile notNL := by
        have := splitNL_fst ((r.drop (i + 3)).take j)
        rw [hsp] at this
        exact this
      have hsnd : joinNL lines = (((r.drop (i + 3)).take j).dropWhile notNL).drop 1 := by
        have := joinNL_splitNL_snd ((r.drop (i + 3)).take j)
        rw [hsp] at this
        exact this
      simp only [hfst, hsnd]

/-- Witness for C4: no backticks at all, one backtick group, and a full
code block with a language tag, on concrete responses. -/
theorem C4_witness :
    (∃ e, check_code_segment "no code here".toList = .error e) ∧
    (∃ e, check_code_segment "a ```c\nint x;".toList = .error e) ∧
    check_code_segment "a ```c\nint x;\n``` b".toList =
      .ok (some "c".toList, "int x;\n".toList) := by
  refine ⟨(C4_check_code_segment _).1 ((find3_eq_none_iff _).mp (by decide)),
    (C4_check_code_segment _).2.1 2 (by decide) (by decide)
      ((find3_eq_none_iff _).mp (by decide)), ?_⟩
  have h := (C4_check_code_segment "a ```c\nint x;\n``` b".toList).2.2 2 9
    (by decide) (by decide) (by decide) (by decide)
  rw [h]
  decide

/-! ## JSON state serialization (`generator.py`, `mutation/api.py`) -/

/-- JSON values, the on-disk state format. -/
inductive JVal where
  | jnull
  | jbool (b : Bool)
  | jint (n : ℤ)
  | jnum (q : ℚ)
  | jstr (s : String)
  | jarr (elems : List JVal)
  | jobj (fields : List (String × JVal))

/-- The embedding of a Python list comprehension over fallible element
conversions: left to right, first raised exception wins. -/
def mapME {α β : Type} (f : α → Except PyErr β) : List α → Except PyErr (List β)
  | [] => .ok []
  | x :: xs => do
    let y ← f x
    let ys ← mapME f xs
    .ok (y :: ys)

theorem mapME_map_ok {α β γ : Type} (f : α → Except PyErr β) (g : γ → α)
    (e : γ → β) (h : ∀ x, f (g x) = .ok (e x)) (l : List γ) :
    mapME f (l.map g) = .ok (l.map e) := by
  induction l with
  | nil => rfl
  | cons x xs ih =>
    rw [List.map_cons, mapME, h x, List.map_cons]
    show (do
      let ys ← mapME f (xs.map g)
      Except.ok (e x :: ys)) = .ok (e x :: xs.map e)
    rw [ih]
    rfl

/-- `Trial` (`generator.py`): per-run counters, convergence flag, cost. -/
structure Trial where
  trial : ℤ := 0
  failure_agent : ℤ := 0
  failure_parse : ℤ := 0
  failure_compile : ℤ := 0
  failure_fuzzer : ℤ := 0
  failure_coverage : ℤ := 0
  failure_critical_path : ℤ := 0
  success : ℤ := 0
  converged : Bool := false
  cost : ℚ := 0
deriving DecidableEq, Repr

/-- The dataclass field names of `Trial`. -/
def trialFieldNames : List String :=
  ["trial", "failure_agent", "failure_parse", "failure_compile",
   "failure_fuzzer", "failure_coverage", "failure_critical_path",
   "success", "converged", "cost"]

/-- `Trial.dump` = `asdict(self)`. -/
def Trial.dump (t : Trial) : JVal :=
  .jobj [("trial", .jint t.trial), ("failure_agent", .jint t.failure_agent),
    ("failure_parse", .jint t.failure_parse),
    ("failure_compile", .jint t.failure_compile),
    ("failure_fuzzer", .jint t.failure_fuzzer),
    ("failure_coverage", .jint t.failure_coverage),
    ("failure_critical_path", .jint t.failure_critical_path),
    ("success", .jint t.success), ("converged", .jbool t.converged),
    ("cost", .jnum t.cost)]

/-- `d[k]` as an `int` field with a dataclass default (absent keys take the
default, as `cls(**dumps)` does; values are decoded per the dataclass
annotation, which coincides with Python's untyped assignment on every
`dump` output). -/
def jFieldInt (fields : List (String × JVal)) (k : String) : Except PyErr ℤ :=
  match lookupS k fields with
  | none => .ok 0
  | some (.jint n) => .ok n
  | some _ => .error .typeError

def jFieldBool (fields : List (String × JVal)) (k : String) : Except PyErr Bool :=
  match lookupS k fields with
  | none => .ok false
  | some (.jbool b) => .ok b
  | some _ => .error .typeError

def jFieldNum (fields : List (String × JVal)) (k : String) : Except PyErr ℚ :=
  match lookupS k fields with
  | none => .ok 0
  | some (.jnum q) => .ok q
  | some _ => .error .typeError

/-- `Trial.load` = `cls(**dumps)`: a non-dict or an unknown keyword raises
`TypeError`; missing fields take the dataclass defaults. -/
def Trial.load (d : JVal) : Except PyErr Trial :=
  match d with
  | .jobj fields =>
    if fields.all fun f => trialFieldNames.contains f.1 then do
      let trial ← jFieldInt fields "trial"
      let failure_agent ← jFieldInt fields "failure_agent"
      let failure_parse ← jFieldInt fields "failure_parse"
      let failure_compile ← jFieldInt fields "failure_compile"
      let failure_fuzzer ← jFieldInt fields "failure_fuzzer"
      let failure_coverage ← jFieldInt fields "failure_coverage"
      let failure_critical_path ← jFieldInt fields "failure_critical_path"
      let success ← jFieldInt fields "success"
      let converged ← jFieldBool fields "converged"
      let cost ← jFieldNum fields "cost"
      .ok ⟨trial, failure_agent, failure_parse, failure_compile,
        failure_fuzzer, failure_coverage, failure_critical_path,
        success, converged, cost⟩
    else .error .typeError
  | _ => .error .typeError

/-- `APIGadget` (`analyzer/static/ast.py`): a callable surface point.
`sig` below stands for the concrete language plug-in's `signature()`
renderer (dispatched by subclassing in the source); after `load`, the
hooked `signature()` returns `_dumped_signature` when it is set. -/
structure APIGadget where
  name : String
  return_type : String
  arguments : List (Option String × String)
  _meta : List (String × String)
  _dumped_signature : Option String := none
deriving DecidableEq, Repr

/-- `APIGadget.signature()` with the post-`load` hook applied. -/
def APIGadget.signature (sig : APIGadget → String) (g : APIGadget) : String :=
  match g._dumped_signature with
  | some s => s
  | none => sig g

def argToJ (a : Option String × String) : JVal :=
  .jarr [a.1.elim .jnull .jstr, .jstr a.2]

def argFromJ : JVal → Except PyErr (Option String × String)
  | .jarr [.jnull, .jstr t] => .ok (none, t)
  | .jarr [.jstr n, .jstr t] => .ok (some n, t)
  | _ => .error .typeError

def metaToJ (m : List (String × String)) : JVal :=
  .jobj (m.map fun p => (p.1, .jstr p.2))

def metaFromJ : JVal → Except PyErr (List (String × String))
  | .jobj fs => mapME (fun p =>
      match p.2 with
      | .jstr s => .ok (p.1, s)
      | _ => .error .typeError) fs
  | _ => .error .typeError

/-- The dataclass field names of `APIGadget`. -/
def gadgetFieldNames : List String :=
  ["name", "return_type", "arguments", "_meta", "_dumped_signature"]

/-- `APIGadget.dump`: `asdict(self)` with `_dumped_signature` overridden by
the rendered `signature()`. -/
def APIGadget.dump (sig : APIGadget → String) (g : APIGadget) : JVal :=
  .jobj [("name", .jstr g.name), ("return_type", .jstr g.return_type),
    ("arguments", .jarr (g.arguments.map argToJ)),
    ("_meta", metaToJ g._meta),
    ("_dumped_signature", .jstr (g.signature sig))]

/-- `APIGadget.load`: `cls(**dumped)` (every field required except the
defaulted `_dumped_signature`), plus the `signature` hook captured in the
`_dumped_signature` field. -/
def APIGadget.load (d : JVal) : Except PyErr APIGadget :=
  match d with
  | .jobj fields =>
    if fields.all fun f => gadgetFieldNames.contains f.1 then do
      let name ← (match lookupS "name" fields with
        | some (.jstr s) => .ok s
        | _ => .error .typeError)
      let return_type ← (match lookupS "return_type" fields with
        | some (.jstr s) => .ok s
        | _ => .error .typeError)
      let arguments ← (match lookupS "arguments" fields with
        | some (.jarr l) => mapME argFromJ l
        | _ => .error .typeError)
      let meta ← (match lookupS "_meta" fields with
        | some v => metaFromJ v
        | none => .error .typeError)
      let ds ← (match lookupS "_dumped_signature" fields with
        | none => .ok none
        | some .jnull => .ok none
        | some (.jstr s) => .ok (some s)
        | some _ => .error .typeError)
      .ok ⟨name, return_type, arguments, meta, ds⟩
    else .error .typeError
  | _ => .error .typeError

/-- Counter entry `{"prompt": int, "seed": int}` of the mutator. -/
structure CounterEntry where
  prompt : ℤ
  seed : ℤ
deriving DecidableEq, Repr

def counterToJ (c : List (String × CounterEntry)) : JVal :=
  .jobj (c.map fun p =>
    (p.1, .jobj [("prompt", .jint p.2.prompt), ("seed", .jint p.2.seed)]))

def counterFromJ : JVal → Except PyErr (List (String × CounterEntry))
  | .jobj fs => mapME (fun p =>
      match p.2 with
      | .jobj [("prompt", .jint pr), ("seed", .jint sd)] => .ok (p.1, ⟨pr, sd⟩)
      | _ => .error .typeError) fs
  | _ => .error .typeError

/-- A seed-bank record of the mutator. -/
structure Seed where
  quality : ℚ
  critical_path : List (String × Option ℤ)
  source : String
deriving DecidableEq, Repr

def cpElemToJ (e : String × Option ℤ) : JVal :=
  .jarr [.jstr e.1, e.2.elim .jnull .jint]

def cpElemFromJ : JVal → Except PyErr (String × Option ℤ)
  | .jarr [.jstr n, .jnull] => .ok (n, none)
  | .jarr [.jstr n, .jint l] => .ok (n, some l)
  | _ => .error .typeError

def seedToJ (s : Seed) : JVal :=
  .jobj [("quality", .jnum s.quality),
    ("critical_path", .jarr (s.critical_path.map cpElemToJ)),
    ("source", .jstr s.source)]

def seedFromJ : JVal → Except PyErr Seed
  | .jobj [("quality", .jnum q), ("critical_path", .jarr cps),
      ("source", .jstr src)] => do
    let cp ← mapME cpElemFromJ cps
    .ok ⟨q, cp, src⟩
  | _ => .error .typeError

/-- `APIMutator` state (`mutation/api.py`). -/
structure APIMutator where
  gadgets : List APIGadget
  counter : List (String × CounterEntry)
  seeds : List Seed
  exponent : ℚ
deriving DecidableEq, Repr

/-- `APIMutator.__init__` with `counter=None, seeds=None`: a fresh counter
entry for every gadget, an empty seed bank, `exponent=1.0`. -/
def APIMutator.init (sig : APIGadget → String) (gadgets : List APIGadget) :
    APIMutator :=
  ⟨gadgets, gadgets.map fun g => (g.signature sig, ⟨0, 0⟩), [], 1⟩

/-- `APIMutator.dump`. -/
def APIMutator.dump (sig : APIGadget → String) (m : APIMutator) : JVal :=
  .jobj [("gadgets", .jarr (m.gadgets.map (APIGadget.dump sig))),
    ("counter", counterToJ m.counter),
    ("seeds", .jarr (m.seeds.map seedToJ)),
    ("exponent", .jnum m.exponent)]

/-- `APIMutator.load`: evaluates the constructor arguments left to right —
`dumps["gadgets"]`, `dumps["counter"]`, `dumps["seeds"]`, and then
`dumps["deponent"]` (sic, the source misspells the key it wrote as
`"exponent"`), so the final lookup raises `KeyError` on every `dump`
output. -/
def APIMutator.load (d : JVal) : Except PyErr APIMutator :=
  match d with
  | .jobj fields => do
    let gjv ← (match lookupS "gadgets" fields with
      | some v => .ok v
      | none => .error (.keyError "gadgets"))
    let gadgets ← (match gjv with
      | .jarr l => mapME APIGadget.load l
      | _ => .error .typeError)
    let cjv ← (match lookupS "counter" fields with
      | some v => .ok v
      | none => .error (.keyError "counter"))
    let counter ← counterFromJ cjv
    let sjv ← (match lookupS "seeds" fields with
      | some v => .ok v
      | none => .error (.keyError "seeds"))
    let seeds ← (match sjv with
      | .jarr l => mapME seedFromJ l
      | _ => .error .typeError)
    let ejv ← (match lookupS "deponent" fields with
      | some v => .ok v
      | none => .error (.keyError "deponent"))
    let exponent ← (match ejv with
      | .jnum q => .ok q
      | .jint n => .ok (n : ℚ)
      | _ => .error .typeError)
    .ok ⟨gadgets, counter, seeds, exponent⟩
  | _ => .error .typeError

theorem trial_load_dump (t : Trial) : Trial.load (Trial.dump t) = .ok t := rfl

theorem gadget_load_dump (sig : APIGadget → String) (g : APIGadget) :
    APIGadget.load (APIGadget.dump sig g) =
      .ok ⟨g.name, g.return_type, g.arguments, g._meta,
        some (g.signature sig)⟩ := by
  have hargs : mapME argFromJ (g.arguments.map argToJ) =
      .ok (g.arguments.map id) := by
    refine mapME_map_ok _ _ _ ?_ _
    rintro ⟨n | n, t⟩ <;> rfl
  have hmeta : metaFromJ (metaToJ g._meta) = .ok (g._meta.map id) := by
    rw [metaToJ, metaFromJ]
    refine mapME_map_ok _ _ _ ?_ _
    rintro ⟨k, v⟩
    rfl
  rw [List.map_id] at hargs hmeta
  show (do
      let arguments ← mapME argFromJ (g.arguments.map argToJ)
      let meta ← metaFromJ (metaToJ g._meta)
      Except.ok (⟨g.name, g.return_type, arguments, meta,
        some (g.signature sig)⟩ : APIGadget)) =
    Except.ok ⟨g.name, g.return_type, g.arguments, g._meta,
      some (g.signature sig)⟩
  rw [hargs, hmeta]
  rfl

theorem counterFromJ_toJ (c : List (String × CounterEntry)) :
    counterFromJ (counterToJ c) = .ok c := by
  rw [counterToJ, counterFromJ]
  have h := mapME_map_ok
    (fun p : String × JVal =>
      match p.2 with
      | .jobj [("prompt", .jint pr), ("seed", .jint sd)] =>
        .ok (p.1, (⟨pr, sd⟩ : CounterEntry))
      | _ => .error .typeError)
    (fun p : String × CounterEntry =>
      (p.1, .jobj [("prompt", .jint p.2.prompt), ("seed", .jint p.2.seed)]))
    id (fun p => rfl) c
  rw [List.map_id] at h
  exact h

theorem seed_load_dump (s : Seed) : seedFromJ (seedToJ s) = .ok s := by
  have hcp : mapME cpElemFromJ (s.critical_path.map cpElemToJ) =
      .ok (s.critical_path.map id) := by
    refine mapME_map_ok _ _ _ ?_ _
    rintro ⟨n, l | l⟩ <;> rfl
  rw [List.map_id] at hcp
  rw [seedToJ, seedFromJ]
  show (do
    let cp ← mapME cpElemFromJ (s.critical_path.map cpElemToJ)
    Except.ok (⟨s.quality, cp, s.source⟩ : Seed)) = .ok s
  rw [hcp]
  rfl

/-- C3 (code bug): `Trial` state round-trips through `dump`/`load`, but
`APIMutator.load` reads the key `"deponent"` where `dump` wrote
`"exponent"`, so `load(dump(m))` raises `KeyError` for EVERY mutator state
instead of reconstructing it. -/
theorem C3_roundtrip :
    (∀ t : Trial, Trial.load (Trial.dump t) = .ok t) ∧
    ∀ (sig : APIGadget → String) (m : APIMutator),
      APIMutator.load (APIMutator.dump sig m) =
        .error (.keyError "deponent") := by
  refine ⟨trial_load_dump, fun sig m => ?_⟩
  have hg : mapME APIGadget.load (m.gadgets.map (APIGadget.dump sig)) =
      .ok (m.gadgets.map fun g =>
        (⟨g.name, g.return_type, g.arguments, g._meta,
          some (g.signature sig)⟩ : APIGadget)) :=
    mapME_map_ok _ _ _ (gadget_load_dump sig) _
  have hs : mapME seedFromJ (m.seeds.map seedToJ) =
      .ok (m.seeds.map id) := mapME_map_ok _ _ _ seed_load_dump _
  rw [List.map_id] at hs
  show (do
      let gadgets ← mapME APIGadget.load (m.gadgets.map (APIGadget.dump sig))
      let counter ← counterFromJ (counterToJ m.counter)
      let seeds ← mapME seedFromJ (m.seeds.map seedToJ)
      (Except.error (PyErr.keyError "deponent") : Except PyErr APIMutator)) =
    Except.error (.keyError "deponent")
  rw [hg, counterFromJ_toJ, hs]
  rfl

/-! ## API mutator behaviour (`mutation/api.py`) -/

/-- The injected random source: a stream of naturals (exhaustion yields 0).
Each primitive below is a deterministic function of the source, which is
all the claims about the mutator depend on. -/
abbrev RState := List ℕ

def nextNat : RState → ℕ × RState
  | [] => (0, [])
  | n :: rest => (n, rest)

/-- `random.random()`: a deterministic draw in `[0, 1)`. -/
def pyRandom (s : RState) : ℚ × RState :=
  let (n, s') := nextNat s
  (((n % 1000 : ℕ) : ℚ) / 1000, s')

/-- `random.randint(a, b)` (both ends inclusive; empty range raises). -/
def pyRandint (a b : ℤ) (s : RState) : Except PyErr (ℤ × RState) :=
  if b < a then .error .valueError
  else
    let (n, s') := nextNat s
    .ok (a + (n : ℤ) % (b - a + 1), s')

/-- `random.shuffle(l)`: modelled as a source-driven rotation (an arbitrary
deterministic permutation of the list is all the embedded code relies on). -/
def pyShuffle {α : Type} (l : List α) (s : RState) : List α × RState :=
  let (n, s') := nextNat s
  (l.rotateLeft (n % (l.length + 1)), s')

/-- `random.choices(items, weights, k=1)`: raises on an empty population or
a non-positive total weight, else a source-driven pick. -/
def pyChoicesW {α : Type} (items : List α) (weights : List ℚ) (s : RState) :
    Except PyErr (α × RState) :=
  match items with
  | [] => .error .valueError
  | x :: xs =>
    if weights.sum ≤ 0 then .error .valueError
    else
      let (n, s') := nextNat s
      .ok ((x :: xs).getD (n % (xs.length + 1)) x, s')

/-- Python `x or 0.0` on a `float | None` value: `None` AND `0.0` are both
falsy, so the default is returned for either (which coincides with
`Option.getD 0`). -/
def pyOrQ (o : Option ℚ) (d : ℚ) : ℚ :=
  match o with
  | none => d
  | some v => if v = 0 then d else v

/-- Python `l[:k]` (negative `k` counts from the end). -/
def pySliceTo {α : Type} (l : List α) (k : ℤ) : List α :=
  if 0 ≤ k then l.take k.toNat else l.take (l.length - (-k).toNat)

/-- Python `l[-k:]`. -/
def pySliceLast {α : Type} (l : List α) (k : ℤ) : List α :=
  if k = 0 then l
  else if 0 < k then l.drop (l.length - k.toNat)
  else l.drop ((-k).toNat)

/-- `l.insert(i, x)` (Python clamps the index). -/
def pyInsertAt {α : Type} (l : List α) (i : ℤ) (x : α) : List α :=
  pySliceTo l i ++ x :: (if 0 ≤ i then l.drop i.toNat else l.drop (l.length - (-i).toNat))

/-- `APIMutator._energy`: per gadget, `(1 - (cover_branch(name) or 0.0)) /
((1 + seed) * (1 + prompt)) ** exponent`, in gadget-list order.  `fpow`
stands for the float `**`.  A missing counter entry raises `KeyError`; the
walrus filter `if (cnt := ...)` always passes because an entry is a
non-empty (truthy) two-key dict. -/
def APIMutator.energy (fpow : ℚ → ℚ → ℚ) (sig : APIGadget → String)
    (m : APIMutator) (coverage : Coverage) : Except PyErr (List ℚ) :=
  mapME (fun g => do
    let cnt ← (match lookupS (g.signature sig) m.counter with
      | some c => .ok c
      | none => .error (.keyError (g.signature sig)))
    .ok ((1 - pyOrQ (coverage.cover_branch g.name) 0) /
      fpow (((1 + cnt.seed) * (1 + cnt.prompt) : ℤ) : ℚ) m.exponent))
    m.gadgets

/-- `APIMutator._group_energies` on `(gadget, energy)` pairs: group by
energy (a dict keyed by the float), then sort the groups by descending
energy. -/
def group_energies (pairs : List (APIGadget × ℚ)) : List (ℚ × List APIGadget) :=
  let keys := (pairs.map Prod.snd).dedup
  let groups := keys.map fun e => (e, (pairs.filter fun p => p.2 = e).map Prod.fst)
  groups.mergeSort fun a b => decide (b.1 ≤ a.1)

/-- The accumulation loop of `APIMutator._highest_energies`. -/
def highestLoop : List (ℚ × List APIGadget) → ℤ → RState →
    List APIGadget × RState
  | [], _, s => ([], s)
  | (_, gadgets) :: rest, len_, s =>
    if (gadgets.length : ℤ) ≤ len_ then
      let (tail, s') := highestLoop rest (len_ - gadgets.length) s
      (gadgets ++ tail, s')
    else
      let (shuffled, s') := pyShuffle gadgets s
      (pySliceTo shuffled len_, s')

/-- `APIMutator._highest_energies`. -/
def highest_energies (pairs : List (APIGadget × ℚ)) (len_ : ℤ) (s : RState) :
    List APIGadget × RState :=
  highestLoop (group_energies pairs) len_ s

/-- The name-deduplicating projection loop of
`APIMutator._sample_apis_from_seeds`. -/
def samplePath (pack : List (String × (APIGadget × ℚ))) :
    List (String × Option ℤ) → List String → List (APIGadget × ℚ)
  | [], _ => []
  | (name, _) :: rest, names =>
    match lookupS name pack with
    | none => samplePath pack rest names
    | some p =>
      if name ∈ names then samplePath pack rest names
      else p :: samplePath pack rest (name :: names)

/-- `APIMutator._sample_apis_from_seeds`: sample one seed weighted by
quality and project its critical path onto the gadget universe.  The
`pack` dict comprehension keeps the LAST binding per name, hence the
`reverse` before `lookupS` (which returns the first match). -/
def APIMutator.sample_apis_from_seeds (sig : APIGadget → String)
    (m : APIMutator) (energies : List ℚ) (s : RState) :
    Except PyErr (List (APIGadget × ℚ) × RState) := do
  let pack := ((m.gadgets.zip energies).map fun p => (p.1.name, p)).reverse
  let (seed, s') ← pyChoicesW m.seeds (m.seeds.map Seed.quality) s
  .ok (samplePath pack seed.critical_path [], s')

/-- Shuffling every energy bin in `APIMutator._insert`. -/
def shuffleGroups : List (ℚ × List APIGadget) → RState →
    List (ℚ × List APIGadget) × RState
  | [], s => ([], s)
  | (e, gs) :: rest, s =>
    let (gs', s') := pyShuffle gs s
    let (tail, s'') := shuffleGroups rest s'
    ((e, gs') :: tail, s'')

/-- The `while len(gadgets) < maxlen and k > 0` loop of
`APIMutator._insert`; popping from an exhausted candidate list
(`gadget, *candidates = candidates`) raises `ValueError`. -/
def insertLoop (sig : APIGadget → String) (maxlen : ℤ) :
    List APIGadget → List APIGadget → List String → ℤ → RState →
    Except PyErr (List APIGadget × RState)
  | candidates, gs, cache, k, s =>
    if (gs.length : ℤ) < maxlen ∧ 0 < k then
      match candidates with
      | [] => .error .valueError
      | g :: rest =>
        if g.signature sig ∈ cache then insertLoop sig maxlen rest gs cache k s
        else do
          let (pos, s') ← pyRandint 0 gs.length s
          insertLoop sig maxlen rest (pyInsertAt gs pos g)
            (g.signature sig :: cache) (k - 1) s'
    else .ok (gs, s)

/-- `APIMutator._insert` (called with `(gadget, energy)` pairs; the other
call site, the replace branch, unpacks a plain gadget list and is embedded
separately in `_mutate_from_seeds`). -/
def APIMutator.insert (sig : APIGadget → String) (m : APIMutator)
    (gadgets : List (APIGadget × ℚ)) (energies : List ℚ) (maxlen k : ℤ)
    (s : RState) : Except PyErr (List APIGadget × RState) :=
  let gs := gadgets.map Prod.fst
  let cache := gs.map (·.signature sig)
  let (grouped, s₁) := shuffleGroups (group_energies (m.gadgets.zip energies)) s
  let candidates := (grouped.map Prod.snd).flatten
  insertLoop sig maxlen candidates gs cache k s₁

/-- `APIMutator._remove`: drop the `k` lowest-energy members (the last `k`
of the energy-descending ordering). -/
def APIMutator.remove (sig : APIGadget → String)
    (gadgets : List (APIGadget × ℚ)) (k : ℤ) (s : RState) :
    List APIGadget × RState :=
  let (he, s') := highest_energies gadgets gadgets.length s
  let lowest := (pySliceLast he k).map (·.signature sig)
  ((gadgets.filter fun p => p.1.signature sig ∉ lowest).map Prod.fst, s')

/-- `APIMutator._crossover` (note: it returns `(gadget, energy)` PAIRS,
not gadgets — the source splices the tuple lists as they are). -/
def APIMutator.crossover (gadgets other : List (APIGadget × ℚ)) (k : ℤ)
    (s : RState) : Except PyErr (List (APIGadget × ℚ) × RState) :=
  let (gadgets, other) :=
    if gadgets.length < other.length then (other, gadgets) else (gadgets, other)
  if (gadgets.length : ℤ) < k then .ok (gadgets ++ other, s)
  else if (other.length : ℤ) < k then do
    let (i, s') ← pyRandint 0 (gadgets.length - other.length - 1) s
    .ok (pySliceTo gadgets i ++ other ++ gadgets.drop (i + other.length).toNat, s')
  else do
    let (i, s₁) ← pyRandint 0 (gadgets.length - k - 1) s
    let (j, s₂) ← pyRandint 0 (other.length - k - 1) s₁
    .ok (pySliceTo gadgets i ++ (other.drop j.toNat).take k.toNat ++
      gadgets.drop (i + k).toNat, s₂)

/-- The result of `select`: the insert/replace branches return gadget
lists, the crossover branch returns `(gadget, energy)` pairs. -/
abbrev SelectResult := List APIGadget ⊕ List (APIGadget × ℚ)

/-- `APIMutator._mutate_from_seeds` (`minlen` is accepted and never used).
In the replace branch, `_insert` unpacks `for g, _ in gadgets` over the
plain gadget list returned by `_remove`, raising `TypeError` unless that
list is empty. -/
def APIMutator.mutate_from_seeds (sig : APIGadget → String) (m : APIMutator)
    (energies : List ℚ) (minlen maxlen changes : ℤ) (s : RState) :
    Except PyErr (SelectResult × RState) := do
  let (gadgets, s₁) ← m.sample_apis_from_seeds sig energies s
  let (op, s₂) ← pyRandint 0 2 s₁
  if op = 0 then do
    let (res, s₃) ← m.insert sig gadgets energies maxlen changes s₂
    .ok (.inl res, s₃)
  else if op = 1 then
    let (removed, s₃) := APIMutator.remove sig gadgets changes s₂
    if removed.isEmpty then do
      let (res, s₄) ← m.insert sig [] energies maxlen changes s₃
      .ok (.inl res, s₄)
    else .error .typeError
  else do
    let (other, s₃) ← m.sample_apis_from_seeds sig energies s₂
    let (res, s₄) ← APIMutator.crossover gadgets other changes s₃
    .ok (.inr res, s₄)

/-- `APIMutator.select`: compute the energies, draw `random.random()` for
the PromptFuzz determinant, and choose the mutate-from-seeds branch or the
top-`maxlen` highest-energy branch.  Nothing in `select` (or anywhere else
in `mutation/api.py`) writes to `self.counter`. -/
def APIMutator.select (fpow : ℚ → ℚ → ℚ) (sig : APIGadget → String)
    (m : APIMutator) (coverage : Coverage) (minlen maxlen : ℤ) (s : RState) :
    Except PyErr (SelectResult × RState) := do
  let energies ← m.energy fpow sig coverage
  let (r, s₁) := pyRandom s
  let det := min ((m.seeds.length : ℚ) / 100) (8 / 10) > r
  if 0 < m.seeds.length ∧ det then
    m.mutate_from_seeds sig energies minlen maxlen 3 s₁
  else
    let (res, s₂) := highest_energies (m.gadgets.zip energies) maxlen s₁
    .ok (.inl res, s₂)

/-- `APIMutator.append_seeds`: compute the quality from the (buggy) `flat`
and append a seed record; `self.counter` is untouched here as well. -/
def APIMutator.append_seeds (m : APIMutator) (path : String) (cov : Coverage)
    (critical_path : List (String × Option ℤ)) : Except PyErr APIMutator := do
  let flat ← cov.flat true
  let quality : ℚ := 1 * (1 + (pyDictSize flat : ℚ))
  .ok { m with seeds := m.seeds ++ [⟨quality, critical_path, path⟩] }

theorem mapME_ok_of_mem {α β : Type} (f : α → Except PyErr β) (e : α → β) :
    ∀ l : List α, (∀ x ∈ l, f x = .ok (e x)) → mapME f l = .ok (l.map e)
  | [], _ => rfl
  | x :: xs, h => by
    rw [mapME, h x (List.mem_cons_self x xs), List.map_cons]
    show (do
      let ys ← mapME f xs
      Except.ok (e x :: ys)) = .ok (e x :: xs.map e)
    rw [mapME_ok_of_mem f e xs fun y hy => h y (List.mem_cons_of_mem x hy)]
    rfl

theorem pyOrQ_zero (o : Option ℚ) : pyOrQ o 0 = o.getD 0 := by
  cases o with
  | none => rfl
  | some v =>
    rw [pyOrQ, Option.getD_some]
    by_cases h : v = 0
    · rw [if_pos h, h]
    · rw [if_neg h]

/-- The energy list, under the assumption that every gadget has a counter
entry (`entry g`): the claimed formula, in gadget-list order, with the
unknown-coverage default 0. -/
theorem energy_spec (fpow : ℚ → ℚ → ℚ) (sig : APIGadget → String)
    (m : APIMutator) (cov : Coverage) (entry : APIGadget → CounterEntry)
    (h : ∀ g ∈ m.gadgets, lookupS (g.signature sig) m.counter = some (entry g)) :
    m.energy fpow sig cov = .ok (m.gadgets.map fun g =>
      (1 - (cov.cover_branch g.name).getD 0) /
        fpow (((1 + (entry g).seed) * (1 + (entry g).prompt) : ℤ) : ℚ)
          m.exponent) := by
  rw [APIMutator.energy]
  apply mapME_ok_of_mem
  intro g hg
  rw [h g hg]
  show Except.ok ((1 - pyOrQ (cov.cover_branch g.name) 0) /
      fpow (((1 + (entry g).seed) * (1 + (entry g).prompt) : ℤ) : ℚ) m.exponent) = _
  rw [pyOrQ_zero]

/-- C7: for every gadget with counter entry `(prompt, seed)`, the
scheduling energy equals `(1 − cov_branch(name) or 0) /
((1 + seed) * (1 + prompt)) ** exponent`, computed in gadget-list order. -/
theorem C7_energy_formula (fpow : ℚ → ℚ → ℚ) (sig : APIGadget → String)
    (m : APIMutator) (cov : Coverage) (entry : APIGadget → CounterEntry)
    (h : ∀ g ∈ m.gadgets, lookupS (g.signature sig) m.counter = some (entry g)) :
    m.energy fpow sig cov = .ok (m.gadgets.map fun g =>
      (1 - (cov.cover_branch g.name).getD 0) /
        fpow (((1 + (entry g).seed) * (1 + (entry g).prompt) : ℤ) : ℚ)
          m.exponent) :=
  energy_spec fpow sig m cov entry h

/-- The default signature renderer used in concrete instances below. -/
def sigName : APIGadget → String := fun g => g.name

/-- A concrete one-gadget universe. -/
def gSample : APIGadget := ⟨"f", "int", [], [], none⟩

/-- Witness for C7: one gadget named `f` with counter entry
`{prompt: 2, seed: 3}` and branch coverage 1/2 gets energy
`(1 - 1/2) / fpow 12 1`; instantiated at `fpow b e = b`, the energy is
`1/24`. -/
theorem C7_witness :
    APIMutator.energy (fun b _ => b) sigName
      ⟨[gSample], [("f", ⟨2, 3⟩)], [], 1⟩
      (Coverage.mk [("f", [("B0", 1), ("B1", 0)])] []) = .ok [1 / 24] := by
  have h := C7_energy_formula (fun b _ => b) sigName
    ⟨[gSample], [("f", ⟨2, 3⟩)], [], 1⟩
    (Coverage.mk [("f", [("B0", 1), ("B1", 0)])] [])
    (fun _ => ⟨2, 3⟩) (by decide)
  rw [h]
  have hcb : (Coverage.mk [("f", [("B0", 1), ("B1", 0)])] []).cover_branch "f" =
      some (1 / 2) := by
    rw [Coverage.cover_branch]
    norm_num [lookupS, List.countP, List.countP.go]
  simp only [List.map_cons, List.map_nil, gSample, hcb]
  norm_num

/-- C10: `select` ignores its `minlen` argument entirely — for the same
mutator state, coverage, `maxlen` and random source, any two `minlen`
values produce identical results (including identical consumption of the
random source). -/
theorem C10_minlen_has_no_effect (fpow : ℚ → ℚ → ℚ) (sig : APIGadget → String)
    (m : APIMutator) (cov : Coverage) (min1 min2 maxlen : ℤ) (s : RState) :
    m.select fpow sig cov min1 maxlen s = m.select fpow sig cov min2 maxlen s := by
  simp only [APIMutator.select, APIMutator.mutate_from_seeds]

theorem highest_energies_single (g : APIGadget) (e : ℚ) (len_ : ℤ)
    (s : RState) (hlen : 1 ≤ len_) : highest_energies [(g, e)] len_ s = ([g], s) := by
  rw [highest_energies, group_energies]
  have hgroups : (([(g, e)].map Prod.snd).dedup).map
      (fun e' => (e', ([(g, e)].filter fun p => p.2 = e').map Prod.fst)) =
      [(e, [g])] := by
    simp [List.filter]
  simp only [hgroups, List.mergeSort_singleton, highestLoop]
  rw [if_pos (by simpa using hlen)]
  rfl

theorem zip_single_map {α β : Type} (g : α) (f : α → β) :
    [g].zip ([g].map f) = [(g, f g)] := rfl

theorem select_no_seeds (fpow : ℚ → ℚ → ℚ) (sig : APIGadget → String)
    (m : APIMutator) (cov : Coverage) (minlen maxlen : ℤ) (s : RState)
    (hseeds : m.seeds = []) (energies : List ℚ)
    (he : m.energy fpow sig cov = .ok energies) :
    m.select fpow sig cov minlen maxlen s =
      .ok (.inl (highest_energies (m.gadgets.zip energies) maxlen
            (pyRandom s).2).1,
        (highest_energies (m.gadgets.zip energies) maxlen (pyRandom s).2).2) := by
  simp only [APIMutator.select, he]
  rcases hp : pyRandom s with ⟨r, s₁⟩
  simp only [hseeds]
  show (if 0 < ([] : List Seed).length ∧ min ((([] : List Seed).length : ℚ) / 100) (8 / 10) > r
    then m.mutate_from_seeds sig energies minlen maxlen 3 s₁
    else
      let p := highest_energies (m.gadgets.zip energies) maxlen s₁
      .ok (.inl p.1, p.2)) = _
  rw [if_neg (by simp)]

/-- C6 (code bug): nothing in `mutation/api.py` ever increments the
counter.  On a fresh one-gadget mutator with an empty seed bank, `select`
returns the gadget (one appearance in a selection result) while the
counter entry of the gadget — untouched by `select`, which only reads
state — still holds `prompt = 0 < 1`; likewise `append_seeds` never
writes the counter's `seed` field.  This holds for every float-power
model, every `minlen`, and every state of the injected random source. -/
theorem C6_counter_not_incremented (fpow : ℚ → ℚ → ℚ) (minlen : ℤ)
    (s : RState) :
    (APIMutator.init sigName [gSample]).select fpow sigName Coverage.empty
        minlen 2 s = .ok (.inl [gSample], (pyRandom s).2) ∧
    lookupS (gSample.signature sigName)
        (APIMutator.init sigName [gSample]).counter = some ⟨0, 0⟩ := by
  constructor
  · have he := energy_spec fpow sigName (APIMutator.init sigName [gSample])
      Coverage.empty (fun _ => ⟨0, 0⟩) (by decide)
    rw [select_no_seeds fpow sigName _ _ minlen 2 s rfl _ he]
    have hg : (APIMutator.init sigName [gSample]).gadgets = [gSample] := rfl
    rw [hg, zip_single_map, highest_energies_single _ _ 2 _ (by norm_num)]
  · rfl

/-! ## Agent runtime (`agent/base.py`) -/

/-- A tool-call request in an assistant message. -/
structure ToolCallReq where
  id : String
  name : String
  arguments : String
deriving DecidableEq, Repr

/-- An assistant message: text content and optional tool calls. -/
structure AssistantMsg where
  content : Option String
  toolCalls : Option (List ToolCallReq)
deriving DecidableEq, Repr

/-- OpenAI-style chat records. -/
inductive Msg where
  | chat (role content : String)
  | assistant (m : AssistantMsg)
  | tool (callId name content : String)
deriving DecidableEq, Repr

/-- The outcome of one `litellm.completion` call: an exception (captured
as the formatted traceback) or a response with an optional computed
price (`_compute_pricing`, `None` for unknown models). -/
inductive Completion where
  | exn (tb : String)
  | ok (m : AssistantMsg) (price : Option ℚ)

/-- `Agent.Response` (`validated` is `Success | None` in the source; only
its presence matters here). -/
structure Response where
  response : Option String
  messages : List Msg
  turn : Option ℕ
  error : Option String := none
  billing : Option ℚ := none
  validated : Option Unit := none
deriving DecidableEq

/-- What happens when one tool call is dispatched (`json.loads`, then
`pre_call` / the tool / `post_call`): malformed arguments, a raised
condition, or a JSON-serialized return together with the `post_call`
result (a `Response` short-circuits the loop). -/
inductive ToolStep where
  | jsonError (e : String)
  | callExn (e : String)
  | ok (retn : String) (post : Option Response)

def toolMsg (req : ToolCallReq) (content : String) : Msg :=
  .tool req.id req.name content

/-- The in-order dispatch of one assistant message's tool calls: each call
appends one `tool` message; a `post_call` `Response` returns immediately,
skipping the remaining calls. -/
def processCalls (toolNames : List String)
    (toolExec : String → String → ToolStep) :
    List ToolCallReq → List Msg → List Msg × Option Response
  | [], msgs => (msgs, none)
  | req :: rest, msgs =>
    if req.name ∈ toolNames then
      match toolExec req.name req.arguments with
      | .jsonError e => processCalls toolNames toolExec rest (msgs ++
          [toolMsg req ("error: exception occured during parsing arguments, \x60"
            ++ e ++ "\x60")])
      | .callExn e => processCalls toolNames toolExec rest (msgs ++
          [toolMsg req ("error: exception occured during calling the function, \x60"
            ++ e ++ "\x60")])
      | .ok retn post =>
        let msgs' := msgs ++ [toolMsg req retn]
        match post with
        | none => processCalls toolNames toolExec rest msgs'
        | some resp => (msgs', some resp)
    else
      processCalls toolNames toolExec rest (msgs ++
        [toolMsg req ("error: undefined function \x60" ++ req.name ++
          "\x60, available only \x60" ++ String.intercalate ", " toolNames ++ "\x60")])

/-- The diagnostic of the exhausted loop. -/
def turnLimitMsg (maxTurns : ℕ) : String :=
  "iteration exceeds the given maximum number of the turns of conversation, "
    ++ toString maxTurns

/-- The immediate-error message for models without function calling. -/
def unsupportedMsg (model : String) : String :=
  "the given model \x60" ++ model ++
    "\x60 does not support function calling by litellm"

/-- `if (_price := ...) is not None: total_price = (total_price or 0.0) + _price`. -/
def accPrice (total : Option ℚ) (p : Option ℚ) : Option ℚ :=
  match p with
  | none => total
  | some q => some (total.getD 0 + q)

/-- The `for turn in range(max_turns)` loop of `Agent.run` (with tools),
by remaining turn count; the second result component counts the
`litellm.completion` calls made. -/
def agentLoop (completions : ℕ → Completion) (toolNames : List String)
    (toolExec : String → String → ToolStep) (maxTurns : ℕ) :
    ℕ → ℕ → List Msg → Option ℚ → ℕ → Response × ℕ
  | _, 0, msgs, price, n =>
    (⟨none, msgs, some maxTurns, some (turnLimitMsg maxTurns), price, none⟩, n)
  | turn, rem + 1, msgs, price, n =>
    match completions turn with
    | .exn tb => (⟨none, msgs, some turn, some tb, price, none⟩, n + 1)
    | .ok am newPrice =>
      let msgs' := msgs ++ [.assistant am]
      let price' := accPrice price newPrice
      match am.toolCalls with
      | none => (⟨am.content, msgs', some turn, none, price', none⟩, n + 1)
      | some reqs =>
        match processCalls toolNames toolExec reqs msgs' with
        | (msgs'', none) =>
          agentLoop completions toolNames toolExec maxTurns
            (turn + 1) rem msgs'' price' (n + 1)
        | (msgs'', some resp) =>
          ({resp with messages := msgs'', turn := some turn, billing := price'},
            n + 1)

/-- `Agent.run`: the single-completion no-tools path, the immediate error
for models without function-calling support (no completion call), and the
tool loop.  The model is total: every captured exception becomes a
`Response` value. -/
def agentRun (model : String) (supportsFC : Bool)
    (completions : ℕ → Completion) (tools : Option (List String))
    (toolExec : String → String → ToolStep) (messages : List Msg)
    (maxTurns : ℕ) : Response × ℕ :=
  match tools with
  | none =>
    match completions 0 with
    | .exn tb => (⟨none, messages, none, some tb, none, none⟩, 1)
    | .ok am price =>
      (⟨am.content, messages ++ [.assistant am], none, none, price, none⟩, 1)
  | some toolNames =>
    if supportsFC then
      agentLoop completions toolNames toolExec maxTurns 0 maxTurns messages none 0
    else
      (⟨none, messages, none, some (unsupportedMsg model), none, none⟩, 0)

theorem processCalls_snd_indep (toolNames : List String)
    (toolExec : String → String → ToolStep) (reqs : List ToolCallReq) :
    ∀ msgs, (processCalls toolNames toolExec reqs msgs).2 =
      (processCalls toolNames toolExec reqs []).2 := by
  induction reqs with
  | nil => intro msgs; rfl
  | cons req rest ih =>
    intro msgs
    by_cases h : req.name ∈ toolNames
    · cases hte : toolExec req.name req.arguments with
      | jsonError e =>
        simp only [processCalls, if_pos h, hte]
        exact (ih _).trans (ih _).symm
      | callExn e =>
        simp only [processCalls, if_pos h, hte]
        exact (ih _).trans (ih _).symm
      | ok retn post =>
        cases post with
        | none =>
          simp only [processCalls, if_pos h, hte]
          exact (ih _).trans (ih _).symm
        | some resp =>
          simp only [processCalls, if_pos h, hte]
    · simp only [processCalls, if_neg h]
      exact (ih _).trans (ih _).symm

/-- If every remaining turn yields an assistant message with tool calls
and no `post_call` short-circuit, the loop falls through to the
turn-limit error response, making one completion call per turn. -/
theorem agentLoop_exhausts (completions : ℕ → Completion)
    (toolNames : List String) (toolExec : String → String → ToolStep)
    (maxTurns : ℕ) :
    ∀ (rem turn : ℕ) (msgs : List Msg) (price : Option ℚ) (n : ℕ),
      (∀ t, turn ≤ t → t < turn + rem → ∃ am p reqs,
        completions t = .ok am p ∧ am.toolCalls = some reqs ∧
        (processCalls toolNames toolExec reqs []).2 = none) →
      ∃ msgs' price',
        agentLoop completions toolNames toolExec maxTurns turn rem msgs price n =
          (⟨none, msgs', some maxTurns, some (turnLimitMsg maxTurns),
            price', none⟩, n + rem) := by
  intro rem
  induction rem with
  | zero =>
    intro turn msgs price n _
    exact ⟨msgs, price, rfl⟩
  | succ r ih =>
    intro turn msgs price n h
    obtain ⟨am, p, reqs, hc, htc, hpc⟩ := h turn (le_refl turn) (by omega)
    rw [agentLoop, hc]
    simp only [htc]
    rcases hproc : processCalls toolNames toolExec reqs (msgs ++ [.assistant am])
      with ⟨msgs'', o⟩
    have ho : o = none := by
      have := processCalls_snd_indep toolNames toolExec reqs
        (msgs ++ [.assistant am])
      rw [hproc, hpc] at this
      exact this
    subst ho
    rw [hproc]
    obtain ⟨msgs', price', hrec⟩ := ih (turn + 1) msgs'' (accPrice price p) (n + 1)
      (fun t ht1 ht2 => h t (by omega) (by omega))
    refine ⟨msgs', price', ?_⟩
    show agentLoop completions toolNames toolExec maxTurns (turn + 1) r msgs''
        (accPrice price p) (n + 1) = _
    rw [hrec]
    congr 1
    omega

/-- C8: with a tool set, a model without function-calling support makes
the call return an error `Response` immediately, with zero completion
calls; and when every turn up to `max_turns` produces tool calls with no
final text and no `post_call` short-circuit, the loop returns an error
`Response` whose message names the turn limit (the model is a total
function: no exception escapes in either case). -/
theorem C8_unsupported_and_turn_limit (model : String)
    (completions : ℕ → Completion) (toolNames : List String)
    (toolExec : String → String → ToolStep) (messages : List Msg)
    (maxTurns : ℕ) :
    (agentRun model false completions (some toolNames) toolExec messages
        maxTurns =
      (⟨none, messages, none, some (unsupportedMsg model), none, none⟩, 0)) ∧
    ((∀ t, t < maxTurns → ∃ am p reqs,
        completions t = .ok am p ∧ am.toolCalls = some reqs ∧
        (processCalls toolNames toolExec reqs []).2 = none) →
      ∃ msgs' price',
        agentRun model true completions (some toolNames) toolExec messages
          maxTurns =
        (⟨none, msgs', some maxTurns, some (turnLimitMsg maxTurns),
          price', none⟩, maxTurns)) := by
  constructor
  · rfl
  · intro h
    obtain ⟨msgs', price', hrec⟩ := agentLoop_exhausts completions toolNames
      toolExec maxTurns maxTurns 0 messages none 0
      (fun t ht1 ht2 => h t (by omega))
    rw [Nat.zero_add] at hrec
    exact ⟨msgs', price', hrec⟩

/-- Witness for C8 at max_turns = 2 with assistant messages carrying an
empty tool-call list every turn (no text answer, no short-circuit). -/
theorem C8_witness :
    (agentRun "m" false (fun _ => .ok ⟨none, some []⟩ none) (some [])
        (fun _ _ => .ok "" none) [] 2 =
      (⟨none, [], none, some (unsupportedMsg "m"), none, none⟩, 0)) ∧
    ∃ msgs' price',
      agentRun "m" true (fun _ => .ok ⟨none, some []⟩ none) (some [])
          (fun _ _ => .ok "" none) [] 2 =
        (⟨none, msgs', some 2, some (turnLimitMsg 2), price', none⟩, 2) :=
  ⟨(C8_unsupported_and_turn_limit "m" (fun _ => .ok ⟨none, some []⟩ none) []
      (fun _ _ => .ok "" none) [] 2).1,
    (C8_unsupported_and_turn_limit "m" (fun _ => .ok ⟨none, some []⟩ none) []
      (fun _ _ => .ok "" none) [] 2).2
      (fun t _ => ⟨⟨none, some []⟩, none, [], rfl, rfl, rfl⟩)⟩

/-- C9: with `tools=None`, a raising completion call produces a `Response`
with `response=None`, a non-null `error` (the captured traceback), and the
caller's message list unchanged — no exception propagates and nothing is
appended on the error path. -/
theorem C9_no_tools_error_path (model : String) (supportsFC : Bool)
    (completions : ℕ → Completion)
    (toolExec : String → String → ToolStep) (messages : List Msg)
    (maxTurns : ℕ) (tb : String) (h : completions 0 = .exn tb) :
    agentRun model supportsFC completions none toolExec messages maxTurns =
      (⟨none, messages, none, some tb, none, none⟩, 1) := by
  rw [agentRun]
  rw [h]

/-- Witness for C9 on a concrete raising completion. -/
theorem C9_witness :
    agentRun "m" true (fun _ => .exn "Traceback: boom") none
        (fun _ _ => .ok "" none) [.chat "user" "hi"] 30 =
      (⟨none, [.chat "user" "hi"], none, some "Traceback: boom", none, none⟩,
        1) :=
  C9_no_tools_error_path "m" true (fun _ => .exn "Traceback: boom")
    (fun _ _ => .ok "" none) [.chat "user" "hi"] 30 "Traceback: boom" rfl
